import Mathlib

/-!
Verification development for the slack-code session-tracking daemon.

The definitions below are a shallow embedding of the Rust sources:
  crates/slack-code-common/src/session.rs   (Session, SessionStatus, WaitReason)
  crates/slack-code-common/src/ipc.rs       (HookEvent, DaemonCommand)
  crates/slack-code-daemon/src/session.rs   (SessionManager)
  crates/slack-code-daemon/src/ipc.rs       (read_message / write_message framing)
  crates/slack-code-daemon/src/daemon.rs    (hook-event branch of the event loop)

Rust strings are modelled as `List Char`; `HashMap` is modelled as an
association list with unique keys (lookup takes the first match, insert
erases the key first, erase removes all bindings of the key — on the
unique-key states a `HashMap` can actually be in, these agree with the Rust
semantics).  `Uuid::new_v4` (fresh, globally unique ids) is modelled by a
`next_id` counter carried in the manager state; `Utc::now()` is modelled by
an explicit clock argument to each operation that reads the clock.
`chrono` timestamps and durations are modelled as `Int`.
-/

namespace SlackCode

abbrev Str := List Char

/-! ### Association-list model of `HashMap` -/

def alGet {α β : Type} [DecidableEq α] : List (α × β) → α → Option β
  | [], _ => none
  | p :: t, k => if p.1 = k then some p.2 else alGet t k

def alErase {α β : Type} [DecidableEq α] : List (α × β) → α → List (α × β)
  | [], _ => []
  | p :: t, k => if p.1 = k then alErase t k else p :: alErase t k

def alInsert {α β : Type} [DecidableEq α] (l : List (α × β)) (k : α) (v : β) :
    List (α × β) :=
  (k, v) :: alErase l k

/-! ### Data model (crates/slack-code-common/src/session.rs) -/

/-- Reason for waiting on user input. -/
inductive WaitReason : Type
  | PermissionPrompt
  | IdlePrompt
  | PlanApproval
deriving DecidableEq

/-- Current status of a session. -/
inductive SessionStatus : Type
  | Starting
  | Running
  | WaitingForInput (reason : WaitReason)
  | Completed
  | Failed (msg : Str)
deriving DecidableEq

/-- Slack thread information for a session. -/
structure SlackThread : Type where
  channel_id : Str
  parent_ts : Str
deriving DecidableEq

/-- A Claude Code session tracked by slack-code. -/
structure Session : Type where
  id : Nat
  claude_session_id : Option Str
  repo_path : Str
  repo_alias : Option Str
  prompt : Str
  status : SessionStatus
  started_at : Int
  ended_at : Option Int
  slack_thread : Option SlackThread
  transcript_path : Option Str
deriving DecidableEq

/-- Embedding of `Session::new`; `id` stands for the freshly generated
`Uuid::new_v4()` and `now` for `Utc::now()`. -/
def Session.new (repo_path : Str) (repo_alias : Option Str) (prompt : Str)
    (id : Nat) (now : Int) : Session :=
  { id := id
    claude_session_id := none
    repo_path := repo_path
    repo_alias := repo_alias
    prompt := prompt
    status := SessionStatus.Starting
    started_at := now
    ended_at := none
    slack_thread := none
    transcript_path := none }

/-- Embedding of `Session::is_active`. -/
def Session.is_active (s : Session) : Bool :=
  match s.status with
  | SessionStatus.Starting => true
  | SessionStatus.Running => true
  | SessionStatus.WaitingForInput _ => true
  | _ => false

/-- Terminal statuses in the sense of the specification: `Completed` or
`Failed`. -/
def SessionStatus.terminal : SessionStatus → Bool
  | SessionStatus.Completed => true
  | SessionStatus.Failed _ => true
  | _ => false

/-- Embedding of `WaitReason::from_notification_type`. -/
def WaitReason.from_notification_type (s : Str) : WaitReason :=
  if s = "permission_prompt".data then WaitReason.PermissionPrompt
  else if s = "idle_prompt".data then WaitReason.IdlePrompt
  else WaitReason.IdlePrompt

/-! ### String helpers: `str::to_lowercase` (ASCII fragment) and
`str::contains` -/

/-- ASCII lowercasing of one character (the fragment of Rust
`char::to_lowercase` exercised by the daemon's messages). -/
def toLowerChar (c : Char) : Char :=
  if 65 ≤ c.toNat ∧ c.toNat ≤ 90 then Char.ofNat (c.toNat + 32) else c

def toLowerStr (s : Str) : Str := s.map toLowerChar

def startsWithL : Str → Str → Bool
  | [], _ => true
  | _ :: _, [] => false
  | a :: as, b :: bs => a == b && startsWithL as bs

/-- Embedding of `str::contains` for a literal needle. -/
def containsSub (needle : Str) : Str → Bool
  | [] => startsWithL needle []
  | c :: t => startsWithL needle (c :: t) || containsSub needle t

/-! ### HookEvent (crates/slack-code-common/src/ipc.rs) -/

/-- Messages sent from Claude Code hooks to the daemon. -/
inductive HookEvent : Type
  | SessionStart (session_id : Str) (transcript_path : Option Str) (cwd : Str)
  | SessionEnd (session_id : Str)
  | Notification (session_id : Str) (message : Str)
      (notification_type : Option Str)
  | Stop (session_id : Str)
deriving DecidableEq

def eventSessionId : HookEvent → Str
  | HookEvent.SessionStart sid _ _ => sid
  | HookEvent.SessionEnd sid => sid
  | HookEvent.Notification sid _ _ => sid
  | HookEvent.Stop sid => sid

def isSessionStart : HookEvent → Bool
  | HookEvent.SessionStart _ _ _ => true
  | _ => false

/-! ### SessionManager (crates/slack-code-daemon/src/session.rs) -/

/-- Manager state: sessions indexed by our id, plus the map from Claude's
session id to our id.  `next_id` models the source of fresh `Uuid`s. -/
structure SessionManager : Type where
  sessions : List (Nat × Session)
  claude_id_map : List (Str × Nat)
  next_id : Nat
deriving DecidableEq

/-- Embedding of `SessionManager::new`. -/
def SessionManager.empty : SessionManager :=
  { sessions := [], claude_id_map := [], next_id := 0 }

/-- The nested `if let` lookup pattern used by every branch of
`handle_hook_event`: claude id to our id, then our id to the session.
Falls through to `none` when either map misses. -/
def findByClaudeId (m : SessionManager) (sid : Str) : Option (Nat × Session) :=
  match alGet m.claude_id_map sid with
  | some ourId =>
    match alGet m.sessions ourId with
    | some s => some (ourId, s)
    | none => none
  | none => none

/-- Embedding of `SessionManager::handle_hook_event`.  Rust mutates `self`
and returns `Option<Session>`; here the updated state is returned alongside
the result. -/
def handleHookEvent (m : SessionManager) (now : Int) (ev : HookEvent) :
    Option Session × SessionManager :=
  match ev with
  | HookEvent.SessionStart session_id transcript_path cwd =>
    match findByClaudeId m session_id with
    | some (ourId, s) =>
      let s2 := { s with status := SessionStatus.Running }
      (some s2, { m with sessions := alInsert m.sessions ourId s2 })
    | none =>
      let base := Session.new cwd none ("External session".data) m.next_id now
      let id := base.id
      let s := { base with
                   claude_session_id := some session_id
                   transcript_path := transcript_path
                   status := SessionStatus.Running }
      (some s,
        { sessions := alInsert m.sessions id s
          claude_id_map := alInsert m.claude_id_map session_id id
          next_id := m.next_id + 1 })
  | HookEvent.SessionEnd session_id =>
    match findByClaudeId m session_id with
    | some (ourId, s) =>
      let s2 := { s with status := SessionStatus.Completed, ended_at := some now }
      (some s2, { m with sessions := alInsert m.sessions ourId s2 })
    | none => (none, m)
  | HookEvent.Notification session_id message notification_type =>
    match findByClaudeId m session_id with
    | some (ourId, s) =>
      let wr0 := (notification_type.map WaitReason.from_notification_type).getD
        WaitReason.IdlePrompt
      let wr := if containsSub ("plan".data) (toLowerStr message) then
          WaitReason.PlanApproval
        else wr0
      let s2 := { s with status := SessionStatus.WaitingForInput wr }
      (some s2, { m with sessions := alInsert m.sessions ourId s2 })
    | none => (none, m)
  | HookEvent.Stop session_id =>
    match findByClaudeId m session_id with
    | some (ourId, s) =>
      let s2 := { s with
                    status := SessionStatus.WaitingForInput WaitReason.IdlePrompt }
      (some s2, { m with sessions := alInsert m.sessions ourId s2 })
    | none => (none, m)

/-- Embedding of `SessionManager::set_slack_thread`. -/
def setSlackThread (m : SessionManager) (session_id : Nat) (thread : SlackThread) :
    SessionManager :=
  match alGet m.sessions session_id with
  | some s =>
    let s2 := { s with slack_thread := some thread }
    { m with sessions := alInsert m.sessions session_id s2 }
  | none => m

/-- The removal filter of `cleanup_old_sessions`. -/
def sessionExpired (max_age now : Int) (s : Session) : Bool :=
  !s.is_active &&
    (match s.ended_at with
     | some e => decide (now - e > max_age)
     | none => false)

/-- One iteration of the removal loop of `cleanup_old_sessions`: remove the
session and, when it carries a claude session id, the claude-map entry. -/
def removeSession (m : SessionManager) (id : Nat) : SessionManager :=
  match alGet m.sessions id with
  | some s =>
    { m with
        sessions := alErase m.sessions id
        claude_id_map :=
          match s.claude_session_id with
          | some cid => alErase m.claude_id_map cid
          | none => m.claude_id_map }
  | none => m

/-- Embedding of `SessionManager::cleanup_old_sessions`: collect the ids of
the expired sessions, then remove them one by one. -/
def cleanupOldSessions (m : SessionManager) (max_age now : Int) : SessionManager :=
  ((m.sessions.filter (fun p => sessionExpired max_age now p.2)).map Prod.fst).foldl
    removeSession m

/-- Embedding of the hook-event branch of the daemon event loop
(crates/slack-code-daemon/src/daemon.rs, `Daemon::run`): apply the event,
then, when the returned session has no Slack thread yet and the Slack
collaborator produces one (`newThread = some t` models a successful
`post_session_start`), attach it via `set_slack_thread`.  The other arms of
the branch only perform Slack I/O and broadcasting, which do not touch the
store. -/
def daemonHookStep (m : SessionManager) (now : Int) (ev : HookEvent)
    (newThread : Option SlackThread) : SessionManager :=
  match handleHookEvent m now ev with
  | (some session, m2) =>
    if session.slack_thread = none then
      match newThread with
      | some t => setSlackThread m2 session.id t
      | none => m2
    else m2
  | (none, m2) => m2

/-- Folding a timed hook-event trace through the store. -/
def applyHookEvents (m : SessionManager) (evs : List (Int × HookEvent)) :
    SessionManager :=
  evs.foldl (fun acc p => (handleHookEvent acc p.1 p.2).2) m

/-- The store operations exposed by `SessionManager`, for reachability
statements. -/
inductive StoreOp : Type
  | hook (now : Int) (ev : HookEvent)
  | setThread (id : Nat) (t : SlackThread)
  | sweep (max_age now : Int)

def applyOp (m : SessionManager) : StoreOp → SessionManager
  | StoreOp.hook now ev => (handleHookEvent m now ev).2
  | StoreOp.setThread id t => setSlackThread m id t
  | StoreOp.sweep a n => cleanupOldSessions m a n

def applyOps (m : SessionManager) (ops : List StoreOp) : SessionManager :=
  ops.foldl applyOp m

/-! ### Wire codec (crates/slack-code-daemon/src/ipc.rs with the serde_json
serialization of the message enums of crates/slack-code-common/src/ipc.rs)

Bytes are modelled as `Nat` (values below 256).  `write_message` serializes
with `serde_json::to_string`, then writes a 4-byte big-endian length prefix
(`json.len() as u32`, i.e. the byte length reduced mod 2^32) followed by
the UTF-8 bytes; `read_message` reads the prefix, then exactly that many
bytes, and UTF-8-decodes them (`String::from_utf8`).  The JSON encoders
below reproduce `serde_json::to_string` for the externally-tagged derived
`Serialize` of `HookEvent` and `DaemonCommand` (struct variants as
`{"Tag":{field:value,...}}` in declaration order, unit variants as
`"Tag"`, `Option<String>` as `null` or a string, strings escaped per
serde_json: quote, backslash, and control characters, the latter via the
short escapes or `\u00XX`).  The decoders model `serde_json::from_str` on
the canonical serialization format produced by `to_string` (declared field
order, no inter-token whitespace; `\uXXXX` escapes are parsed for
non-surrogate code points, which covers everything the encoder emits). -/

/-- Commands sent from TUI to daemon. -/
inductive DaemonCommand : Type
  | Subscribe
  | Unsubscribe
  | GetSessions
  | GetConfig
  | Ping
deriving DecidableEq

/-- UTF-8 encoding of one scalar value, as in Rust `String` byte storage. -/
def utf8EncodeChar (c : Char) : List Nat :=
  if c.toNat < 128 then [c.toNat]
  else if c.toNat < 2048 then [192 + c.toNat / 64, 128 + c.toNat % 64]
  else if c.toNat < 65536 then
    [224 + c.toNat / 4096, 128 + (c.toNat / 64) % 64, 128 + c.toNat % 64]
  else
    [240 + c.toNat / 262144, 128 + (c.toNat / 4096) % 64, 128 + (c.toNat / 64) % 64, 128 + c.toNat % 64]

def utf8Encode (s : Str) : List Nat := s.flatMap utf8EncodeChar

def isCont (b : Nat) : Bool := decide (128 ≤ b ∧ b < 192)

/-- UTF-8 validation and decoding, as in `String::from_utf8`: rejects
overlong forms, surrogates, out-of-range code points, and truncated or
stray continuation bytes. -/
def utf8Decode : List Nat → Option Str
  | [] => some []
  | b :: rest =>
    if b < 128 then (utf8Decode rest).map (fun s => Char.ofNat b :: s)
    else if b < 194 then none
    else if b < 224 then
      match rest with
      | b1 :: r =>
        if isCont b1 then
          (utf8Decode r).map (fun s => Char.ofNat ((b - 192) * 64 + (b1 - 128)) :: s)
        else none
      | [] => none
    else if b < 240 then
      match rest with
      | b1 :: b2 :: r =>
        if isCont b1 && isCont b2 then
          let n := (b - 224) * 4096 + (b1 - 128) * 64 + (b2 - 128)
          if n < 2048 ∨ (55296 ≤ n ∧ n < 57344) then none
          else (utf8Decode r).map (fun s => Char.ofNat n :: s)
        else none
      | _ => none
    else if b < 245 then
      match rest with
      | b1 :: b2 :: b3 :: r =>
        if isCont b1 && isCont b2 && isCont b3 then
          let n := (b - 240) * 262144 + (b1 - 128) * 4096 + (b2 - 128) * 64 + (b3 - 128)
          if n < 65536 ∨ 1114112 ≤ n then none
          else (utf8Decode r).map (fun s => Char.ofNat n :: s)
        else none
      | _ => none
    else none

/-- Big-endian bytes of `n as u32`, as produced by `u32::to_be_bytes`. -/
def be32 (n : Nat) : List Nat :=
  [n / 16777216 % 256, n / 65536 % 256, n / 256 % 256, n % 256]

/-- Embedding of `write_message` after serde serialization: length prefix
then UTF-8 body. -/
def writeMessage (msg : Str) : List Nat :=
  be32 (utf8Encode msg).length ++ utf8Encode msg

/-- Embedding of `read_message` on a byte stream: read the 4-byte prefix,
read exactly that many body bytes (failing like `read_exact` if the stream
is short), UTF-8-decode them, and leave the rest of the stream. -/
def readMessage : List Nat → Option (Str × List Nat)
  | b0 :: b1 :: b2 :: b3 :: rest =>
    if ((b0 * 256 + b1) * 256 + b2) * 256 + b3 ≤ rest.length then
      match utf8Decode (rest.take (((b0 * 256 + b1) * 256 + b2) * 256 + b3)) with
      | some s => some (s, rest.drop (((b0 * 256 + b1) * 256 + b2) * 256 + b3))
      | none => none
    else none
  | _ => none

/-- Lowercase hex digit, as in serde_json's `\u00XX` escapes. -/
def hexDigitChar (n : Nat) : Char :=
  if n < 10 then Char.ofNat (48 + n) else Char.ofNat (87 + n)

/-- serde_json's escaping of one character inside a JSON string. -/
def escapeChar (c : Char) : Str :=
  if c = '"' then ['\\', '"']
  else if c = '\\' then ['\\', '\\']
  else if c.toNat < 32 then
    if c.toNat = 8 then ['\\', 'b']
    else if c.toNat = 9 then ['\\', 't']
    else if c.toNat = 10 then ['\\', 'n']
    else if c.toNat = 12 then ['\\', 'f']
    else if c.toNat = 13 then ['\\', 'r']
    else ['\\', 'u', '0', '0', hexDigitChar (c.toNat / 16), hexDigitChar (c.toNat % 16)]
  else [c]

/-- serde_json's rendering of a string value. -/
def encJsonString (s : Str) : Str :=
  '"' :: (s.flatMap escapeChar ++ ['"'])

def hexVal (c : Char) : Option Nat :=
  if 48 ≤ c.toNat ∧ c.toNat ≤ 57 then some (c.toNat - 48)
  else if 97 ≤ c.toNat ∧ c.toNat ≤ 102 then some (c.toNat - 87)
  else if 65 ≤ c.toNat ∧ c.toNat ≤ 70 then some (c.toNat - 55)
  else none

def consFst (c : Char) (o : Option (Str × Str)) : Option (Str × Str) :=
  o.map (fun p => (c :: p.1, p.2))

/-- JSON short escapes: the character after a backslash. -/
def unescapeChar : Char → Option Char
  | '"' => some '"'
  | '\\' => some '\\'
  | '/' => some '/'
  | 'b' => some (Char.ofNat 8)
  | 'f' => some (Char.ofNat 12)
  | 'n' => some (Char.ofNat 10)
  | 'r' => some (Char.ofNat 13)
  | 't' => some (Char.ofNat 9)
  | _ => none

/-- Parse one escape sequence (the part after the backslash): either
`uXXXX` with a non-surrogate code point, or a short escape.  Returns the
decoded character and the rest of the input. -/
def parseEsc (l : Str) : Option (Char × Str) :=
  match l with
  | [] => none
  | e :: rest2 =>
    if e = 'u' then
      match rest2 with
      | h1 :: h2 :: h3 :: h4 :: rest3 =>
        match hexVal h1, hexVal h2, hexVal h3, hexVal h4 with
        | some a, some b, some c2, some d =>
          if ((a * 16 + b) * 16 + c2) * 16 + d < 55296 ∨
              57344 ≤ ((a * 16 + b) * 16 + c2) * 16 + d then
            some (Char.ofNat (((a * 16 + b) * 16 + c2) * 16 + d), rest3)
          else none
        | _, _, _, _ => none
      | _ => none
    else (unescapeChar e).map (fun c2 => (c2, rest2))

/-- Parse the body of a JSON string up to and including the closing quote;
returns the unescaped content and the rest of the input. -/
def parseJStringBody (l : List Char) : Option (Str × Str) :=
  match l with
  | [] => none
  | c :: rest =>
    if c = '"' then some ([], rest)
    else if c = '\\' then
      match h : parseEsc rest with
      | some cr => consFst cr.1 (parseJStringBody cr.2)
      | none => none
    else if c.toNat < 32 then none
    else consFst c (parseJStringBody rest)
termination_by l.length
decreasing_by
  · simp only [List.length_cons]
    cases rest with
    | nil => simp [parseEsc] at h
    | cons e r2 =>
      simp only [parseEsc] at h
      by_cases he : e = 'u'
      · rw [if_pos he] at h
        split at h
        · split at h
          · split at h
            · obtain rfl := Option.some.inj h
              simp only [List.length_cons]
              omega
            · cases h
          · cases h
        · cases h
      · rw [if_neg he] at h
        cases hu : unescapeChar e with
        | none => rw [hu] at h; cases h
        | some c2 =>
          rw [hu] at h
          obtain rfl := Option.some.inj h
          simp only [List.length_cons]
          omega
  · simp only [List.length_cons]
    omega

/-- Consume an exact literal token. -/
def parseLit : Str → Str → Option Str
  | [], s => some s
  | _ :: _, [] => none
  | c :: p, d :: s => if c = d then parseLit p s else none

/-- Parse a JSON string value (opening quote, body, closing quote). -/
def pString (s : Str) : Option (Str × Str) :=
  match s with
  | c :: r => if c = '"' then parseJStringBody r else none
  | [] => none

/-- Parse the tail of the `null` keyword after its leading `n`. -/
def pNull (r2 : Str) : Option (Option Str × Str) :=
  match r2 with
  | u :: l1 :: l2 :: r3 =>
    if u = 'u' ∧ l1 = 'l' ∧ l2 = 'l' then some (none, r3) else none
  | _ => none

/-- Parse `null` or a JSON string, as serde deserializes `Option<String>`. -/
def pOptString (s : Str) : Option (Option Str × Str) :=
  match s with
  | c :: r2 =>
    if c = 'n' then pNull r2
    else (pString s).map (fun p => (some p.1, p.2))
  | [] => none

/-- serde_json's rendering of an `Option<String>`. -/
def encOptString : Option Str → Str
  | none => "null".data
  | some s => encJsonString s

/-- `serde_json::to_string` for the derived `Serialize` of `HookEvent`. -/
def encodeHookEvent : HookEvent → Str
  | HookEvent.SessionStart sid tp cwd =>
    ['{'] ++ encJsonString ("SessionStart".data) ++ [':'] ++ ['{'] ++
      encJsonString ("session_id".data) ++ [':'] ++ encJsonString sid ++ [','] ++
      encJsonString ("transcript_path".data) ++ [':'] ++ encOptString tp ++ [','] ++
      encJsonString ("cwd".data) ++ [':'] ++ encJsonString cwd ++ ['}'] ++ ['}']
  | HookEvent.SessionEnd sid =>
    ['{'] ++ encJsonString ("SessionEnd".data) ++ [':'] ++ ['{'] ++
      encJsonString ("session_id".data) ++ [':'] ++ encJsonString sid ++ ['}'] ++ ['}']
  | HookEvent.Notification sid msg nt =>
    ['{'] ++ encJsonString ("Notification".data) ++ [':'] ++ ['{'] ++
      encJsonString ("session_id".data) ++ [':'] ++ encJsonString sid ++ [','] ++
      encJsonString ("message".data) ++ [':'] ++ encJsonString msg ++ [','] ++
      encJsonString ("notification_type".data) ++ [':'] ++ encOptString nt ++ ['}'] ++ ['}']
  | HookEvent.Stop sid =>
    ['{'] ++ encJsonString ("Stop".data) ++ [':'] ++ ['{'] ++
      encJsonString ("session_id".data) ++ [':'] ++ encJsonString sid ++ ['}'] ++ ['}']

/-- `serde_json::to_string` for the derived `Serialize` of `DaemonCommand`
(unit variants serialize as plain strings). -/
def encodeDaemonCommand : DaemonCommand → Str
  | DaemonCommand.Subscribe => encJsonString ("Subscribe".data)
  | DaemonCommand.Unsubscribe => encJsonString ("Unsubscribe".data)
  | DaemonCommand.GetSessions => encJsonString ("GetSessions".data)
  | DaemonCommand.GetConfig => encJsonString ("GetConfig".data)
  | DaemonCommand.Ping => encJsonString ("Ping".data)

/-- Parse the payload of a single-string-field struct variant after the
tag: the `session_id` field and the two closing braces, with nothing left
over. -/
def decSidOnly (r1 : Str) : Option Str :=
  (parseLit (':' :: '{' :: (encJsonString ("session_id".data) ++ [':'])) r1).bind (fun r2 =>
  (pString r2).bind (fun sr =>
  (parseLit ('}' :: '}' :: []) sr.2).bind (fun r4 =>
  if r4 = [] then some sr.1 else none)))

/-- `serde_json::from_str::<HookEvent>` on the canonical format. -/
def decodeHookEvent (s : Str) : Option HookEvent :=
  match s with
  | '{' :: r0 =>
    (pString r0).bind (fun tr =>
      if tr.1 = "SessionStart".data then
        (parseLit (':' :: '{' :: (encJsonString ("session_id".data) ++ [':'])) tr.2).bind (fun r2 =>
        (pString r2).bind (fun sr =>
        (parseLit (',' :: (encJsonString ("transcript_path".data) ++ [':'])) sr.2).bind (fun r4 =>
        (pOptString r4).bind (fun tpr =>
        (parseLit (',' :: (encJsonString ("cwd".data) ++ [':'])) tpr.2).bind (fun r6 =>
        (pString r6).bind (fun cr =>
        (parseLit ('}' :: '}' :: []) cr.2).bind (fun r8 =>
        if r8 = [] then some (HookEvent.SessionStart sr.1 tpr.1 cr.1) else none)))))))
      else if tr.1 = "SessionEnd".data then
        (decSidOnly tr.2).map HookEvent.SessionEnd
      else if tr.1 = "Notification".data then
        (parseLit (':' :: '{' :: (encJsonString ("session_id".data) ++ [':'])) tr.2).bind (fun r2 =>
        (pString r2).bind (fun sr =>
        (parseLit (',' :: (encJsonString ("message".data) ++ [':'])) sr.2).bind (fun r4 =>
        (pString r4).bind (fun mr =>
        (parseLit (',' :: (encJsonString ("notification_type".data) ++ [':'])) mr.2).bind (fun r6 =>
        (pOptString r6).bind (fun ntr =>
        (parseLit ('}' :: '}' :: []) ntr.2).bind (fun r8 =>
        if r8 = [] then some (HookEvent.Notification sr.1 mr.1 ntr.1) else none)))))))
      else if tr.1 = "Stop".data then
        (decSidOnly tr.2).map HookEvent.Stop
      else none)
  | _ => none

/-- `serde_json::from_str::<DaemonCommand>` on the canonical format. -/
def decodeDaemonCommand (s : Str) : Option DaemonCommand :=
  match s with
  | '"' :: r =>
    (parseJStringBody r).bind (fun nr =>
      if nr.2 = [] then
        if nr.1 = "Subscribe".data then some DaemonCommand.Subscribe
        else if nr.1 = "Unsubscribe".data then some DaemonCommand.Unsubscribe
        else if nr.1 = "GetSessions".data then some DaemonCommand.GetSessions
        else if nr.1 = "GetConfig".data then some DaemonCommand.GetConfig
        else if nr.1 = "Ping".data then some DaemonCommand.Ping
        else none
      else none)
  | _ => none

/-- `write_message` applied to a `HookEvent`. -/
def sendHookEvent (e : HookEvent) : List Nat :=
  writeMessage (encodeHookEvent e)

/-- `read_message` followed by `serde_json::from_str::<HookEvent>`. -/
def recvHookEvent (stream : List Nat) : Option HookEvent :=
  match readMessage stream with
  | some (msg, _) => decodeHookEvent msg
  | none => none

/-- `write_message` applied to a `DaemonCommand`. -/
def sendDaemonCommand (c : DaemonCommand) : List Nat :=
  writeMessage (encodeDaemonCommand c)

/-- `read_message` followed by `serde_json::from_str::<DaemonCommand>`. -/
def recvDaemonCommand (stream : List Nat) : Option DaemonCommand :=
  match readMessage stream with
  | some (msg, _) => decodeDaemonCommand msg
  | none => none

/-- The session record created by `handle_hook_event` for a session-start
event with an unknown external id: `Session::new` with the placeholder
prompt, then claude id, transcript path and `Running` status filled in. -/
def mkExternalSession (sid : Str) (tp : Option Str) (cwd : Str) (id : Nat)
    (t : Int) : Session :=
  { id := id
    claude_session_id := some sid
    repo_path := cwd
    repo_alias := none
    prompt := "External session".data
    status := SessionStatus.Running
    started_at := t
    ended_at := none
    slack_thread := none
    transcript_path := tp }

/-- The store holds exactly one record, registered under the external id
`sid`. -/
def singletonInv (sid : Str) (m : SessionManager) : Prop :=
  ∃ i s, m.sessions = [(i, s)] ∧ m.claude_id_map = [(sid, i)]

/-- The store is empty or holds exactly one record registered under `sid`. -/
def singleInv (sid : Str) (m : SessionManager) : Prop :=
  (m.sessions = [] ∧ m.claude_id_map = []) ∨ singletonInv sid m

/-- Concrete session record used by witnesses: registered under the claude
session id "a". -/
def baseSession : Session :=
  { id := 0
    claude_session_id := some ("a".data)
    repo_path := "/x".data
    repo_alias := none
    prompt := "p".data
    status := SessionStatus.Running
    started_at := 0
    ended_at := none
    slack_thread := none
    transcript_path := none }

/-- Concrete one-session store used by witnesses. -/
def baseManager : SessionManager :=
  { sessions := [(0, baseSession)]
    claude_id_map := [("a".data, 0)]
    next_id := 1 }

/-- Concrete expired session for the retention-sweep witness. -/
def sweepOld : Session :=
  { id := 10
    claude_session_id := some ("old".data)
    repo_path := "/r1".data
    repo_alias := none
    prompt := "p1".data
    status := SessionStatus.Completed
    started_at := 0
    ended_at := some 100
    slack_thread := none
    transcript_path := none }

/-- Concrete recently-completed session for the retention-sweep witness. -/
def sweepYoung : Session :=
  { id := 11
    claude_session_id := some ("young".data)
    repo_path := "/r2".data
    repo_alias := none
    prompt := "p2".data
    status := SessionStatus.Completed
    started_at := 0
    ended_at := some 990
    slack_thread := none
    transcript_path := none }

/-- Concrete non-terminal session (with an ancient end timestamp left in an
arbitrary state) for the retention-sweep witness. -/
def sweepActive : Session :=
  { id := 12
    claude_session_id := some ("act".data)
    repo_path := "/r3".data
    repo_alias := none
    prompt := "p3".data
    status := SessionStatus.WaitingForInput WaitReason.IdlePrompt
    started_at := 0
    ended_at := some 1
    slack_thread := none
    transcript_path := none }

/-- Concrete three-session store for the retention-sweep witness. -/
def mSweep : SessionManager :=
  { sessions := [(10, sweepOld), (11, sweepYoung), (12, sweepActive)]
    claude_id_map := [("old".data, 10), ("young".data, 11), ("act".data, 12)]
    next_id := 13 }

/-- Concrete Slack threads and store for the thread-preservation witness. -/
def tOld : SlackThread := { channel_id := "C1".data, parent_ts := "111".data }

def tNew : SlackThread := { channel_id := "C2".data, parent_ts := "222".data }

def mThread : SessionManager :=
  { sessions := [(0, { baseSession with slack_thread := some tOld })]
    claude_id_map := [("a".data, 0)]
    next_id := 1 }

/-! ### Lemmas about the association-list map -/

theorem alGet_erase {α β : Type} [DecidableEq α] (l : List (α × β)) (k k' : α) :
    alGet (alErase l k) k' = if k' = k then none else alGet l k' := by
  induction l with
  | nil => simp [alErase, alGet]
  | cons p t ih =>
    by_cases h2 : k' = k
    · subst h2
      by_cases h1 : p.1 = k'
      · simpa [alErase, alGet, h1] using ih
      · simp [alErase, alGet, h1] at ih ⊢
        exact ih
    · by_cases h1 : p.1 = k
      · have hp : ¬ p.1 = k' := fun hh => h2 (hh.symm.trans h1)
        have hkk : ¬ k = k' := fun hh => h2 hh.symm
        simp [alErase, alGet, h1, h2, hp, hkk] at ih ⊢
        exact ih
      · simp [alErase, alGet, h1, h2, ih]

theorem alGet_insert {α β : Type} [DecidableEq α] (l : List (α × β)) (k : α)
    (v : β) (k' : α) :
    alGet (alInsert l k v) k' = if k' = k then some v else alGet l k' := by
  by_cases h : k' = k
  · subst h; simp [alInsert, alGet]
  · have h2 : ¬ k = k' := fun hh => h hh.symm
    simp [alInsert, alGet, h, h2, alGet_erase]

theorem alGet_mem {α β : Type} [DecidableEq α] {l : List (α × β)} {k : α} {v : β}
    (h : alGet l k = some v) : (k, v) ∈ l := by
  induction l with
  | nil => simp [alGet] at h
  | cons p t ih =>
    unfold alGet at h
    by_cases h1 : p.1 = k
    · simp only [if_pos h1, Option.some.injEq] at h
      cases p with
      | mk a b =>
        simp only at h1 h
        subst h1
        subst h
        exact List.mem_cons_self _ _
    · simp only [if_neg h1] at h
      exact List.mem_cons_of_mem _ (ih h)

theorem mem_alGet {α β : Type} [DecidableEq α] {l : List (α × β)} {k : α} {v : β}
    (hnd : (l.map Prod.fst).Nodup) (h : (k, v) ∈ l) : alGet l k = some v := by
  induction l with
  | nil => simp at h
  | cons p t ih =>
    simp only [List.map_cons, List.nodup_cons] at hnd
    rcases List.mem_cons.mp h with h1 | h1
    · simp [alGet, ← h1]
    · have hk : p.1 ≠ k := by
        intro he
        exact hnd.1 (he ▸ (List.mem_map.mpr ⟨(k, v), h1, rfl⟩))
      simp [alGet, hk]
      exact ih hnd.2 h1

theorem is_active_eq_not_terminal (s : Session) :
    s.is_active = !s.status.terminal := by
  cases h : s.status <;> simp [Session.is_active, SessionStatus.terminal, h]

/-! ### Wire codec lemmas -/

theorem charOfNat_toNat (c : Char) : Char.ofNat c.toNat = c := by
  have h : c.toNat.isValidChar := c.valid
  unfold Char.ofNat
  rw [dif_pos h]
  unfold Char.ofNatAux
  apply Char.ext
  apply UInt32.toNat.inj
  rfl

theorem utf8Decode_cons (b : Nat) (rest : List Nat) :
    utf8Decode (b :: rest) =
      (if b < 128 then (utf8Decode rest).map (fun s => Char.ofNat b :: s)
      else if b < 194 then none
      else if b < 224 then
        match rest with
        | b1 :: r =>
          if isCont b1 then
            (utf8Decode r).map (fun s => Char.ofNat ((b - 192) * 64 + (b1 - 128)) :: s)
          else none
        | [] => none
      else if b < 240 then
        match rest with
        | b1 :: b2 :: r =>
          if isCont b1 && isCont b2 then
            let n := (b - 224) * 4096 + (b1 - 128) * 64 + (b2 - 128)
            if n < 2048 ∨ (55296 ≤ n ∧ n < 57344) then none
            else (utf8Decode r).map (fun s => Char.ofNat n :: s)
          else none
        | _ => none
      else if b < 245 then
        match rest with
        | b1 :: b2 :: b3 :: r =>
          if isCont b1 && isCont b2 && isCont b3 then
            let n := (b - 240) * 262144 + (b1 - 128) * 4096 + (b2 - 128) * 64 + (b3 - 128)
            if n < 65536 ∨ 1114112 ≤ n then none
            else (utf8Decode r).map (fun s => Char.ofNat n :: s)
          else none
        | _ => none
      else none) := by
  cases rest with
  | nil => rfl
  | cons b1 t1 =>
    cases t1 with
    | nil => rfl
    | cons b2 t2 =>
      cases t2 with
      | nil => rfl
      | cons b3 t3 => rfl

theorem utf8DecodeChar (c : Char) (r : List Nat) :
    utf8Decode (utf8EncodeChar c ++ r) = (utf8Decode r).map (fun s => c :: s) := by
  have hv : c.toNat < 55296 ∨ (57343 < c.toNat ∧ c.toNat < 1114112) := c.valid
  by_cases h1 : c.toNat < 128
  · rw [show utf8EncodeChar c = [c.toNat] from by rw [utf8EncodeChar, if_pos h1]]
    simp only [List.cons_append, List.nil_append]
    rw [utf8Decode_cons, if_pos h1, charOfNat_toNat]
  · by_cases h2 : c.toNat < 2048
    · rw [show utf8EncodeChar c = [192 + c.toNat / 64, 128 + c.toNat % 64] from by
        rw [utf8EncodeChar, if_neg h1, if_pos h2]]
      simp only [List.cons_append, List.nil_append]
      rw [utf8Decode_cons, if_neg (by omega), if_neg (by omega), if_pos (by omega)]
      simp only []
      rw [if_pos (by simp only [isCont, decide_eq_true_eq]; omega)]
      rw [show (192 + c.toNat / 64 - 192) * 64 + (128 + c.toNat % 64 - 128) = c.toNat from by omega]
      rw [charOfNat_toNat]
    · by_cases h3 : c.toNat < 65536
      · rw [show utf8EncodeChar c =
            [224 + c.toNat / 4096, 128 + (c.toNat / 64) % 64, 128 + c.toNat % 64] from by
          rw [utf8EncodeChar, if_neg h1, if_neg h2, if_pos h3]]
        simp only [List.cons_append, List.nil_append]
        rw [utf8Decode_cons, if_neg (by omega), if_neg (by omega), if_neg (by omega),
          if_pos (by omega)]
        simp only []
        rw [if_pos (by simp only [isCont, Bool.and_eq_true, decide_eq_true_eq]; omega)]
        rw [if_neg (by omega)]
        rw [show (224 + c.toNat / 4096 - 224) * 4096 + (128 + (c.toNat / 64) % 64 - 128) * 64 +
          (128 + c.toNat % 64 - 128) = c.toNat from by omega]
        rw [charOfNat_toNat]
      · rw [show utf8EncodeChar c =
            [240 + c.toNat / 262144, 128 + (c.toNat / 4096) % 64, 128 + (c.toNat / 64) % 64, 128 + c.toNat % 64] from by
          rw [utf8EncodeChar, if_neg h1, if_neg h2, if_neg h3]]
        simp only [List.cons_append, List.nil_append]
        rw [utf8Decode_cons, if_neg (by omega), if_neg (by omega), if_neg (by omega),
          if_neg (by omega), if_pos (by omega)]
        simp only []
        rw [if_pos (by simp only [isCont, Bool.and_eq_true, decide_eq_true_eq]; omega)]
        rw [if_neg (by omega)]
        rw [show (240 + c.toNat / 262144 - 240) * 262144 + (128 + (c.toNat / 4096) % 64 - 128) * 4096 +
          (128 + (c.toNat / 64) % 64 - 128) * 64 + (128 + c.toNat % 64 - 128) = c.toNat from by omega]
        rw [charOfNat_toNat]

theorem utf8Decode_encode (s : Str) : utf8Decode (utf8Encode s) = some s := by
  induction s with
  | nil => rfl
  | cons c t ih =>
    have : utf8Encode (c :: t) = utf8EncodeChar c ++ utf8Encode t := by
      simp [utf8Encode, List.flatMap_cons]
    rw [this, utf8DecodeChar, ih]
    rfl

theorem hexVal_hexDigitChar (k : Nat) (hk : k < 16) :
    hexVal (hexDigitChar k) = some k := by
  have h16 : ∀ j : Fin 16, hexVal (hexDigitChar j.val) = some j.val := by decide
  exact h16 ⟨k, hk⟩

theorem parseJStringBody_quote (rest : Str) :
    parseJStringBody ('"' :: rest) = some ([], rest) := by
  rw [parseJStringBody]
  rw [if_pos rfl]

theorem parseJStringBody_esc (rest : Str) (c2 : Char) (rest2 : Str)
    (h : parseEsc rest = some (c2, rest2)) :
    parseJStringBody ('\\' :: rest) = consFst c2 (parseJStringBody rest2) := by
  rw [parseJStringBody]
  rw [if_neg (by decide), if_pos rfl]
  split
  · rename_i cr heq
    obtain rfl := Option.some.inj (h.symm.trans heq)
    rfl
  · rename_i heq
    rw [heq] at h
    cases h

theorem parseJStringBody_other (c : Char) (rest : Str) (h1 : ¬ c = '"')
    (h2 : ¬ c = '\\') (h3 : ¬ c.toNat < 32) :
    parseJStringBody (c :: rest) = consFst c (parseJStringBody rest) := by
  rw [parseJStringBody]
  rw [if_neg h1, if_neg h2, if_neg h3]

theorem parseEsc_unesc (e : Char) (c2 : Char) (rest2 : Str) (hne : ¬ e = 'u')
    (hu : unescapeChar e = some c2) : parseEsc (e :: rest2) = some (c2, rest2) := by
  simp [parseEsc, hne, hu]

theorem parseEsc_u00 (a b : Nat) (ha : a < 16) (hb : b < 16) (tail : Str) :
    parseEsc ('u' :: '0' :: '0' :: hexDigitChar a :: hexDigitChar b :: tail) =
      some (Char.ofNat (a * 16 + b), tail) := by
  have h0 : hexVal '0' = some 0 := rfl
  simp only [parseEsc, if_pos rfl, h0, hexVal_hexDigitChar a ha,
    hexVal_hexDigitChar b hb]
  have hcond : a * 16 + b < 55296 ∨ 57344 ≤ a * 16 + b := Or.inl (by omega)
  simp only [Nat.zero_mul, Nat.zero_add, Nat.add_zero]
  rw [if_pos hcond]
  exact if_pos trivial

theorem escapeChar_parse (c : Char) (tail : Str) :
    parseJStringBody (escapeChar c ++ tail) = consFst c (parseJStringBody tail) := by
  by_cases h1 : c = '"'
  · subst h1
    rw [show escapeChar '"' = ['\\', '"'] from rfl]
    simp only [List.cons_append, List.nil_append]
    rw [parseJStringBody_esc _ '"' tail (parseEsc_unesc '"' '"' tail (by decide) rfl)]
  · by_cases h2 : c = '\\'
    · subst h2
      rw [show escapeChar '\\' = ['\\', '\\'] from rfl]
      simp only [List.cons_append, List.nil_append]
      rw [parseJStringBody_esc _ '\\' tail
        (parseEsc_unesc '\\' '\\' tail (by decide) rfl)]
    · by_cases h3 : c.toNat < 32
      · by_cases e8 : c.toNat = 8
        · rw [show escapeChar c = ['\\', 'b'] from by
            rw [escapeChar, if_neg h1, if_neg h2, if_pos h3, if_pos e8]]
          simp only [List.cons_append, List.nil_append]
          rw [parseJStringBody_esc _ (Char.ofNat 8) tail
            (parseEsc_unesc 'b' (Char.ofNat 8) tail (by decide) rfl)]
          rw [show Char.ofNat 8 = c from by rw [← e8, charOfNat_toNat]]
        · by_cases e9 : c.toNat = 9
          · rw [show escapeChar c = ['\\', 't'] from by
              rw [escapeChar, if_neg h1, if_neg h2, if_pos h3, if_neg e8, if_pos e9]]
            simp only [List.cons_append, List.nil_append]
            rw [parseJStringBody_esc _ (Char.ofNat 9) tail
              (parseEsc_unesc 't' (Char.ofNat 9) tail (by decide) rfl)]
            rw [show Char.ofNat 9 = c from by rw [← e9, charOfNat_toNat]]
          · by_cases e10 : c.toNat = 10
            · rw [show escapeChar c = ['\\', 'n'] from by
                rw [escapeChar, if_neg h1, if_neg h2, if_pos h3, if_neg e8,
                  if_neg e9, if_pos e10]]
              simp only [List.cons_append, List.nil_append]
              rw [parseJStringBody_esc _ (Char.ofNat 10) tail
                (parseEsc_unesc 'n' (Char.ofNat 10) tail (by decide) rfl)]
              rw [show Char.ofNat 10 = c from by rw [← e10, charOfNat_toNat]]
            · by_cases e12 : c.toNat = 12
              · rw [show escapeChar c = ['\\', 'f'] from by
                  rw [escapeChar, if_neg h1, if_neg h2, if_pos h3, if_neg e8,
                    if_neg e9, if_neg e10, if_pos e12]]
                simp only [List.cons_append, List.nil_append]
                rw [parseJStringBody_esc _ (Char.ofNat 12) tail
                  (parseEsc_unesc 'f' (Char.ofNat 12) tail (by decide) rfl)]
                rw [show Char.ofNat 12 = c from by rw [← e12, charOfNat_toNat]]
              · by_cases e13 : c.toNat = 13
                · rw [show escapeChar c = ['\\', 'r'] from by
                    rw [escapeChar, if_neg h1, if_neg h2, if_pos h3, if_neg e8,
                      if_neg e9, if_neg e10, if_neg e12, if_pos e13]]
                  simp only [List.cons_append, List.nil_append]
                  rw [parseJStringBody_esc _ (Char.ofNat 13) tail
                    (parseEsc_unesc 'r' (Char.ofNat 13) tail (by decide) rfl)]
                  rw [show Char.ofNat 13 = c from by rw [← e13, charOfNat_toNat]]
                · rw [show escapeChar c = ['\\', 'u', '0', '0',
                      hexDigitChar (c.toNat / 16), hexDigitChar (c.toNat % 16)] from by
                    rw [escapeChar, if_neg h1, if_neg h2, if_pos h3, if_neg e8,
                      if_neg e9, if_neg e10, if_neg e12, if_neg e13]]
                  simp only [List.cons_append, List.nil_append]
                  rw [parseJStringBody_esc _
                    (Char.ofNat (c.toNat / 16 * 16 + c.toNat % 16)) tail
                    (parseEsc_u00 (c.toNat / 16) (c.toNat % 16) (by omega)
                      (by omega) tail)]
                  rw [show c.toNat / 16 * 16 + c.toNat % 16 = c.toNat from by omega]
                  rw [charOfNat_toNat]
      · rw [show escapeChar c = [c] from by
          rw [escapeChar, if_neg h1, if_neg h2, if_neg h3]]
        simp only [List.cons_append, List.nil_append]
        rw [parseJStringBody_other c _ h1 h2 h3]

theorem parseJStringBody_enc (s : Str) (r : Str) :
    parseJStringBody (s.flatMap escapeChar ++ ('"' :: r)) = some (s, r) := by
  induction s with
  | nil =>
    simp only [List.flatMap_nil, List.nil_append]
    rw [parseJStringBody_quote]
  | cons c t ih =>
    rw [List.flatMap_cons, List.append_assoc, escapeChar_parse, ih]
    rfl

theorem pString_enc (s : Str) (r : Str) :
    pString (encJsonString s ++ r) = some (s, r) := by
  rw [show encJsonString s ++ r = '"' :: (s.flatMap escapeChar ++ ('"' :: r)) from by
    simp [encJsonString]]
  simp only [pString, if_pos rfl]
  exact parseJStringBody_enc s r

theorem pOptString_enc (o : Option Str) (r : Str) :
    pOptString (encOptString o ++ r) = some (o, r) := by
  cases o with
  | none =>
    rw [show encOptString none ++ r = 'n' :: 'u' :: 'l' :: 'l' :: r from rfl]
    simp [pOptString, pNull]
  | some s =>
    rw [show encOptString (some s) ++ r =
      '"' :: (s.flatMap escapeChar ++ ('"' :: r)) from by simp [encOptString, encJsonString]]
    rw [pOptString]
    rw [if_neg (by decide)]
    rw [show pString ('"' :: (s.flatMap escapeChar ++ ('"' :: r))) = some (s, r) from by
      simp only [pString, if_pos rfl]; exact parseJStringBody_enc s r]
    rfl

theorem parseLit_self (p r : Str) : parseLit p (p ++ r) = some r := by
  induction p with
  | nil => rfl
  | cons c t ih => simp [parseLit, ih]

theorem parseLit_append (p q s : Str) :
    parseLit (p ++ q) s = (parseLit p s).bind (fun s2 => parseLit q s2) := by
  induction p generalizing s with
  | nil => simp [parseLit]
  | cons c t ih =>
    cases s with
    | nil => simp [parseLit]
    | cons d s2 =>
      simp only [List.cons_append, parseLit]
      by_cases h : c = d
      · simp [h, ih]
      · simp [h]

theorem decodeHookEvent_enc (e : HookEvent) :
    decodeHookEvent (encodeHookEvent e) = some e := by
  cases e with
  | SessionStart sid tp cwd =>
    have henc : encodeHookEvent (HookEvent.SessionStart sid tp cwd) =
        '{' :: (encJsonString ("SessionStart".data) ++ (':' :: '{' :: (encJsonString ("session_id".data) ++ (':' :: (encJsonString sid ++ (',' :: (encJsonString ("transcript_path".data) ++ (':' :: (encOptString tp ++ (',' :: (encJsonString ("cwd".data) ++ (':' :: (encJsonString cwd ++ ('}' :: '}' :: [])))))))))))))) := by
      simp [encodeHookEvent]
    rw [henc]
    have heq1 := eq_true (show (("SessionStart".data : Str) = "SessionStart".data) from rfl)
    simp only [decodeHookEvent, pString_enc, pOptString_enc, Option.bind, heq1,
      if_true, parseLit, parseLit_append, parseLit_self, eq_self_iff_true]
  | SessionEnd sid =>
    have henc : encodeHookEvent (HookEvent.SessionEnd sid) =
        '{' :: (encJsonString ("SessionEnd".data) ++ (':' :: '{' :: (encJsonString ("session_id".data) ++ (':' :: (encJsonString sid ++ ('}' :: '}' :: [])))))) := by
      simp [encodeHookEvent]
    rw [henc]
    have hne1 := eq_false (show ¬ (("SessionEnd".data : Str) = "SessionStart".data) from by decide)
    have heq2 := eq_true (show (("SessionEnd".data : Str) = "SessionEnd".data) from rfl)
    simp only [decodeHookEvent, pString_enc, Option.bind, hne1, heq2, if_false,
      if_true, decSidOnly, parseLit, parseLit_append, parseLit_self,
      eq_self_iff_true, Option.map]
  | Notification sid msg nt =>
    have henc : encodeHookEvent (HookEvent.Notification sid msg nt) =
        '{' :: (encJsonString ("Notification".data) ++ (':' :: '{' :: (encJsonString ("session_id".data) ++ (':' :: (encJsonString sid ++ (',' :: (encJsonString ("message".data) ++ (':' :: (encJsonString msg ++ (',' :: (encJsonString ("notification_type".data) ++ (':' :: (encOptString nt ++ ('}' :: '}' :: [])))))))))))))) := by
      simp [encodeHookEvent]
    rw [henc]
    have hne1 := eq_false (show ¬ (("Notification".data : Str) = "SessionStart".data) from by decide)
    have hne2 := eq_false (show ¬ (("Notification".data : Str) = "SessionEnd".data) from by decide)
    have heq3 := eq_true (show (("Notification".data : Str) = "Notification".data) from rfl)
    simp only [decodeHookEvent, pString_enc, pOptString_enc, Option.bind, hne1,
      hne2, heq3, if_false, if_true, parseLit, parseLit_append, parseLit_self,
      eq_self_iff_true]
  | Stop sid =>
    have henc : encodeHookEvent (HookEvent.Stop sid) =
        '{' :: (encJsonString ("Stop".data) ++ (':' :: '{' :: (encJsonString ("session_id".data) ++ (':' :: (encJsonString sid ++ ('}' :: '}' :: [])))))) := by
      simp [encodeHookEvent]
    rw [henc]
    have hne1 := eq_false (show ¬ (("Stop".data : Str) = "SessionStart".data) from by decide)
    have hne2 := eq_false (show ¬ (("Stop".data : Str) = "SessionEnd".data) from by decide)
    have hne3 := eq_false (show ¬ (("Stop".data : Str) = "Notification".data) from by decide)
    have heq4 := eq_true (show (("Stop".data : Str) = "Stop".data) from rfl)
    simp only [decodeHookEvent, pString_enc, Option.bind, hne1, hne2, hne3, heq4,
      if_false, if_true, decSidOnly, parseLit, parseLit_append, parseLit_self,
      eq_self_iff_true, Option.map]

theorem decodeDaemonCommand_enc (c : DaemonCommand) :
    decodeDaemonCommand (encodeDaemonCommand c) = some c := by
  cases c with
  | Subscribe =>
    rw [show encodeDaemonCommand DaemonCommand.Subscribe =
      '"' :: ("Subscribe".data.flatMap escapeChar ++ ('"' :: [])) from by
      simp [encodeDaemonCommand, encJsonString]]
    simp only [decodeDaemonCommand]
    rw [parseJStringBody_enc]
    simp only [Option.bind, eq_self_iff_true, if_true]
  | Unsubscribe =>
    rw [show encodeDaemonCommand DaemonCommand.Unsubscribe =
      '"' :: ("Unsubscribe".data.flatMap escapeChar ++ ('"' :: [])) from by
      simp [encodeDaemonCommand, encJsonString]]
    simp only [decodeDaemonCommand]
    rw [parseJStringBody_enc]
    have hne1 := eq_false (show ¬ (("Unsubscribe".data : Str) = "Subscribe".data) from by decide)
    simp only [Option.bind, eq_self_iff_true, if_true, hne1, if_false]
  | GetSessions =>
    rw [show encodeDaemonCommand DaemonCommand.GetSessions =
      '"' :: ("GetSessions".data.flatMap escapeChar ++ ('"' :: [])) from by
      simp [encodeDaemonCommand, encJsonString]]
    simp only [decodeDaemonCommand]
    rw [parseJStringBody_enc]
    have hne1 := eq_false (show ¬ (("GetSessions".data : Str) = "Subscribe".data) from by decide)
    have hne2 := eq_false (show ¬ (("GetSessions".data : Str) = "Unsubscribe".data) from by decide)
    simp only [Option.bind, eq_self_iff_true, if_true, hne1, hne2, if_false]
  | GetConfig =>
    rw [show encodeDaemonCommand DaemonCommand.GetConfig =
      '"' :: ("GetConfig".data.flatMap escapeChar ++ ('"' :: [])) from by
      simp [encodeDaemonCommand, encJsonString]]
    simp only [decodeDaemonCommand]
    rw [parseJStringBody_enc]
    have hne1 := eq_false (show ¬ (("GetConfig".data : Str) = "Subscribe".data) from by decide)
    have hne2 := eq_false (show ¬ (("GetConfig".data : Str) = "Unsubscribe".data) from by decide)
    have hne3 := eq_false (show ¬ (("GetConfig".data : Str) = "GetSessions".data) from by decide)
    simp only [Option.bind, eq_self_iff_true, if_true, hne1, hne2, hne3, if_false]
  | Ping =>
    rw [show encodeDaemonCommand DaemonCommand.Ping =
      '"' :: ("Ping".data.flatMap escapeChar ++ ('"' :: [])) from by
      simp [encodeDaemonCommand, encJsonString]]
    simp only [decodeDaemonCommand]
    rw [parseJStringBody_enc]
    have hne1 := eq_false (show ¬ (("Ping".data : Str) = "Subscribe".data) from by decide)
    have hne2 := eq_false (show ¬ (("Ping".data : Str) = "Unsubscribe".data) from by decide)
    have hne3 := eq_false (show ¬ (("Ping".data : Str) = "GetSessions".data) from by decide)
    have hne4 := eq_false (show ¬ (("Ping".data : Str) = "GetConfig".data) from by decide)
    simp only [Option.bind, eq_self_iff_true, if_true, hne1, hne2, hne3, hne4, if_false]

theorem readMessage_writeMessage (msg : Str)
    (h : (utf8Encode msg).length < 4294967296) :
    readMessage (writeMessage msg) = some (msg, []) := by
  unfold writeMessage be32
  simp only [List.cons_append, List.nil_append, readMessage]
  rw [show (((utf8Encode msg).length / 16777216 % 256 * 256 +
      (utf8Encode msg).length / 65536 % 256) * 256 +
      (utf8Encode msg).length / 256 % 256) * 256 +
      (utf8Encode msg).length % 256 = (utf8Encode msg).length from by omega]
  rw [if_pos (Nat.le_refl _)]
  rw [List.take_length, utf8Decode_encode, List.drop_length]

/-- C6: writing any HookEvent or DaemonCommand through the wire codec
(serde_json serialization, 4-byte big-endian length prefix, UTF-8 body)
and reading and deserializing it back yields the original value, so long
as the serialized body fits the u32 length prefix. -/
theorem wire_codec_roundtrip :
    (∀ e : HookEvent, (utf8Encode (encodeHookEvent e)).length < 4294967296 →
      recvHookEvent (sendHookEvent e) = some e) ∧
    (∀ c : DaemonCommand, (utf8Encode (encodeDaemonCommand c)).length < 4294967296 →
      recvDaemonCommand (sendDaemonCommand c) = some c) := by
  constructor
  · intro e h
    unfold recvHookEvent sendHookEvent
    rw [readMessage_writeMessage _ h]
    exact decodeHookEvent_enc e
  · intro c h
    unfold recvDaemonCommand sendDaemonCommand
    rw [readMessage_writeMessage _ h]
    exact decodeDaemonCommand_enc c

/-- Witness for C6: a concrete session-start event and a concrete command
survive the full write-read round trip. -/
theorem wire_codec_roundtrip_witness :
    recvHookEvent (sendHookEvent
      (HookEvent.SessionStart ("abc".data) (some ("/t".data)) ("/x".data))) =
      some (HookEvent.SessionStart ("abc".data) (some ("/t".data)) ("/x".data)) ∧
    recvDaemonCommand (sendDaemonCommand DaemonCommand.Subscribe) =
      some DaemonCommand.Subscribe :=
  ⟨wire_codec_roundtrip.1 _ (by decide), wire_codec_roundtrip.2 _ (by decide)⟩

/-! ### Claim theorems -/

/-- C4: for every store state, a session-end, notification, or stop event
whose external session identifier is not registered in the claude-id map
returns `none` and leaves the store state completely unchanged. -/
theorem hook_unknown_id_noop (m : SessionManager) (now : Int) (sid : Str)
    (msg : Str) (nt : Option Str)
    (h : alGet m.claude_id_map sid = none) :
    handleHookEvent m now (HookEvent.SessionEnd sid) = (none, m) ∧
    handleHookEvent m now (HookEvent.Notification sid msg nt) = (none, m) ∧
    handleHookEvent m now (HookEvent.Stop sid) = (none, m) := by
  refine ⟨?_, ?_, ?_⟩ <;> simp [handleHookEvent, findByClaudeId, h]

/-- Witness for C4 at a concrete store and identifier. -/
theorem hook_unknown_id_noop_witness :
    alGet baseManager.claude_id_map ("z".data) = none ∧
    handleHookEvent baseManager 3 (HookEvent.SessionEnd ("z".data)) =
      (none, baseManager) ∧
    handleHookEvent baseManager 3
        (HookEvent.Notification ("z".data) ("hi".data) none) =
      (none, baseManager) ∧
    handleHookEvent baseManager 3 (HookEvent.Stop ("z".data)) =
      (none, baseManager) := by
  have h : alGet baseManager.claude_id_map ("z".data) = none := by decide
  have hm := hook_unknown_id_noop baseManager 3 ("z".data) ("hi".data) none h
  exact ⟨h, hm.1, hm.2.1, hm.2.2⟩

/-- C2 (evidence): the return value of `handle_hook_event` carries no
`statusChanged` information at all.  Two stores whose registered session
differs exactly in whether its status already was `Running` produce
identical results and identical post-states for the same session-start
event, so no component of the return value can reflect whether the status
actually differed; the declared return type is `Option Session`, not
`Option (Session, bool)` as destructured by its caller in daemon.rs. -/
theorem handle_hook_event_no_status_flag :
    (some SessionStatus.Running ≠
      (alGet ({ baseManager with
        sessions := [(0, { baseSession with
          status := SessionStatus.Starting })] }).sessions 0).map
        Session.status) ∧
    (alGet baseManager.sessions 0).map Session.status =
      some SessionStatus.Running ∧
    handleHookEvent baseManager 10
        (HookEvent.SessionStart ("a".data) none ("/x".data)) =
      handleHookEvent ({ baseManager with
          sessions := [(0, { baseSession with
            status := SessionStatus.Starting })] }) 10
        (HookEvent.SessionStart ("a".data) none ("/x".data)) := by
  decide

/-- C5: for every registered session, a notification event with classifier
"permission_prompt" and message "please approve" sets the status to
`WaitingForInput PermissionPrompt`, and any notification event whose
message contains "plan" case-insensitively sets the status to
`WaitingForInput PlanApproval` regardless of the classifier. -/
theorem notification_wait_reason (m : SessionManager) (sid : Str) (i : Nat)
    (s : Session) (now : Int)
    (h1 : alGet m.claude_id_map sid = some i)
    (h2 : alGet m.sessions i = some s) :
    ((handleHookEvent m now
        (HookEvent.Notification sid ("please approve".data)
          (some ("permission_prompt".data)))).1 =
      some ({ s with status :=
        SessionStatus.WaitingForInput WaitReason.PermissionPrompt })) ∧
    (∀ msg nt, containsSub ("plan".data) (toLowerStr msg) = true →
      (handleHookEvent m now (HookEvent.Notification sid msg nt)).1 =
        some ({ s with status :=
          SessionStatus.WaitingForInput WaitReason.PlanApproval })) := by
  constructor
  · have hplan :
        containsSub ("plan".data) (toLowerStr ("please approve".data)) = false := by
      decide
    have hperm : WaitReason.from_notification_type ("permission_prompt".data) =
        WaitReason.PermissionPrompt := by decide
    simp [handleHookEvent, findByClaudeId, h1, h2, hplan, hperm]
  · intro msg nt hmsg
    simp [handleHookEvent, findByClaudeId, h1, h2, hmsg]

/-- Witness for C5: both notification shapes evaluated on a concrete
store, including the message "Please review the Plan" with the
permission-prompt classifier. -/
theorem notification_wait_reason_witness :
    ((handleHookEvent baseManager 5
        (HookEvent.Notification ("a".data) ("please approve".data)
          (some ("permission_prompt".data)))).1 =
      some ({ baseSession with status :=
        SessionStatus.WaitingForInput WaitReason.PermissionPrompt })) ∧
    ((handleHookEvent baseManager 5
        (HookEvent.Notification ("a".data) ("Please review the Plan".data)
          (some ("permission_prompt".data)))).1 =
      some ({ baseSession with status :=
        SessionStatus.WaitingForInput WaitReason.PlanApproval })) := by
  have hm := notification_wait_reason baseManager ("a".data) 0 baseSession 5
    (by decide) (by decide)
  exact ⟨hm.1, hm.2 ("Please review the Plan".data)
    (some ("permission_prompt".data)) (by decide)⟩

/-- C10: a session-start event for an already-registered external
identifier changes only the status field of the stored record; every other
field is kept, and the transcript path and working directory carried by
the event are ignored (the result does not mention them). -/
theorem session_start_existing_frame (m : SessionManager) (sid : Str) (i : Nat)
    (s : Session) (now : Int) (tp : Option Str) (cwd : Str)
    (h1 : alGet m.claude_id_map sid = some i)
    (h2 : alGet m.sessions i = some s) :
    handleHookEvent m now (HookEvent.SessionStart sid tp cwd) =
      (some ({ s with status := SessionStatus.Running }),
        { m with sessions := alInsert m.sessions i ({ s with status := SessionStatus.Running }) }) := by
  simp [handleHookEvent, findByClaudeId, h1, h2]

/-- Witness for C10 at a concrete store: a second session-start with a
different transcript path and working directory only re-runs the status. -/
theorem session_start_existing_frame_witness :
    handleHookEvent baseManager 9
        (HookEvent.SessionStart ("a".data) (some ("/t2".data)) ("/other".data)) =
      (some ({ baseSession with status := SessionStatus.Running }),
        { baseManager with sessions := alInsert baseManager.sessions 0 ({ baseSession with status := SessionStatus.Running }) }) :=
  session_start_existing_frame baseManager ("a".data) 0 baseSession 9
    (some ("/t2".data)) ("/other".data) (by decide) (by decide)

/-- C8: starting an unregistered session and then ending it at a strictly
later clock reading yields a record with status `Completed`, a set end
timestamp equal to the end-event time, and a start timestamp equal to the
start-event time, hence an end timestamp strictly after the start
timestamp. -/
theorem session_end_after_start (m : SessionManager) (sid : Str)
    (tp : Option Str) (cwd : Str) (t0 t1 : Int)
    (hsid : alGet m.claude_id_map sid = none) (ht : t0 < t1) :
    ∃ s, (handleHookEvent
        (handleHookEvent m t0 (HookEvent.SessionStart sid tp cwd)).2 t1
        (HookEvent.SessionEnd sid)).1 = some s ∧
      s.status = SessionStatus.Completed ∧
      s.ended_at = some t1 ∧ s.started_at = t0 ∧ s.started_at < t1 := by
  refine ⟨{ id := m.next_id
            claude_session_id := some sid
            repo_path := cwd
            repo_alias := none
            prompt := "External session".data
            status := SessionStatus.Completed
            started_at := t0
            ended_at := some t1
            slack_thread := none
            transcript_path := tp }, ?_, rfl, rfl, rfl, ht⟩
  simp only [handleHookEvent, findByClaudeId, hsid]
  simp [alGet_insert, Session.new]

/-! ### C1: at most one record per external identifier -/

theorem findByClaudeId_some {m : SessionManager} {sid : Str} {i : Nat}
    {s : Session} (h : findByClaudeId m sid = some (i, s)) :
    alGet m.claude_id_map sid = some i ∧ alGet m.sessions i = some s := by
  unfold findByClaudeId at h
  cases h1 : alGet m.claude_id_map sid with
  | none => simp [h1] at h
  | some j =>
    cases h2 : alGet m.sessions j with
    | none => simp [h1, h2] at h
    | some s0 =>
      simp [h1, h2] at h
      obtain ⟨rfl, rfl⟩ := h
      exact ⟨rfl, h2⟩

/-- On every branch that finds a registered session, `handle_hook_event`
returns an updated copy of that session and stores it back at the same
internal key; the update never touches the Slack thread or the internal
id. -/
theorem handleHookEvent_found (m : SessionManager) (t : Int) (ev : HookEvent)
    (i : Nat) (s : Session)
    (hf : findByClaudeId m (eventSessionId ev) = some (i, s)) :
    ∃ s2, handleHookEvent m t ev =
      (some s2, { m with sessions := alInsert m.sessions i s2 }) ∧
      s2.slack_thread = s.slack_thread ∧ s2.id = s.id := by
  cases ev with
  | SessionStart sid tp cwd =>
    simp only [eventSessionId] at hf
    refine ⟨{ s with status := SessionStatus.Running }, ?_, rfl, rfl⟩
    simp [handleHookEvent, hf]
  | SessionEnd sid =>
    simp only [eventSessionId] at hf
    refine ⟨{ s with status := SessionStatus.Completed, ended_at := some t }, ?_, rfl, rfl⟩
    simp [handleHookEvent, hf]
  | Notification sid msg nt =>
    simp only [eventSessionId] at hf
    refine ⟨{ s with status := SessionStatus.WaitingForInput (if containsSub ("plan".data) (toLowerStr msg) then WaitReason.PlanApproval else (nt.map WaitReason.from_notification_type).getD WaitReason.IdlePrompt) }, ?_, rfl, rfl⟩
    simp [handleHookEvent, hf]
  | Stop sid =>
    simp only [eventSessionId] at hf
    refine ⟨{ s with status :=
      SessionStatus.WaitingForInput WaitReason.IdlePrompt }, ?_, rfl, rfl⟩
    simp [handleHookEvent, hf]

theorem singleton_preserved (sid : Str) (m : SessionManager) (t : Int)
    (ev : HookEvent) (hev : eventSessionId ev = sid) (h : singletonInv sid m) :
    singletonInv sid (handleHookEvent m t ev).2 := by
  obtain ⟨i, s, hs, hm⟩ := h
  have hf : findByClaudeId m sid = some (i, s) := by
    simp [findByClaudeId, hm, hs, alGet]
  obtain ⟨s2, hstep, -, -⟩ := handleHookEvent_found m t ev i s (hev ▸ hf)
  rw [hstep]
  refine ⟨i, s2, ?_, hm⟩
  rw [hs]
  simp [alInsert, alErase]

theorem start_creates_singleton (sid : Str) (m : SessionManager) (t : Int)
    (tp : Option Str) (cwd : Str) (h : singleInv sid m) :
    singletonInv sid (handleHookEvent m t (HookEvent.SessionStart sid tp cwd)).2 := by
  rcases h with ⟨hs, hm⟩ | h
  · have hf : findByClaudeId m sid = none := by
      simp [findByClaudeId, hm, alGet]
    refine ⟨m.next_id,
      { id := m.next_id
        claude_session_id := some sid
        repo_path := cwd
        repo_alias := none
        prompt := "External session".data
        status := SessionStatus.Running
        started_at := t
        ended_at := none
        slack_thread := none
        transcript_path := tp }, ?_, ?_⟩ <;>
      simp [handleHookEvent, hf, hs, hm, alInsert, alErase, Session.new]
  · exact singleton_preserved sid m t _ rfl h

theorem singleInv_preserved (sid : Str) (m : SessionManager) (t : Int)
    (ev : HookEvent) (hev : eventSessionId ev = sid) (h : singleInv sid m) :
    singleInv sid (handleHookEvent m t ev).2 := by
  rcases hsplit : h with ⟨hs, hm⟩ | hsing
  · cases ev with
    | SessionStart sid' tp cwd =>
      simp only [eventSessionId] at hev
      subst hev
      exact Or.inr (start_creates_singleton sid' m t tp cwd h)
    | SessionEnd sid' =>
      have hf : findByClaudeId m sid' = none := by
        simp [findByClaudeId, hm, alGet]
      simpa [handleHookEvent, hf] using h
    | Notification sid' msg nt =>
      have hf : findByClaudeId m sid' = none := by
        simp [findByClaudeId, hm, alGet]
      simpa [handleHookEvent, hf] using h
    | Stop sid' =>
      have hf : findByClaudeId m sid' = none := by
        simp [findByClaudeId, hm, alGet]
      simpa [handleHookEvent, hf] using h
  · exact Or.inr (singleton_preserved sid m t ev hev hsing)

theorem singleInv_trace (sid : Str) (evs : List (Int × HookEvent))
    (m : SessionManager) (hall : ∀ p ∈ evs, eventSessionId p.2 = sid)
    (h : singleInv sid m) : singleInv sid (applyHookEvents m evs) := by
  induction evs generalizing m with
  | nil => exact h
  | cons e rest ih =>
    have h1 := singleInv_preserved sid m e.1 e.2
      (hall e (List.mem_cons_self _ _)) h
    exact ih _ (fun p hp => hall p (List.mem_cons_of_mem _ hp)) h1

theorem singleton_trace (sid : Str) (evs : List (Int × HookEvent))
    (m : SessionManager) (hall : ∀ p ∈ evs, eventSessionId p.2 = sid)
    (h : singletonInv sid m) : singletonInv sid (applyHookEvents m evs) := by
  induction evs generalizing m with
  | nil => exact h
  | cons e rest ih =>
    have h1 := singleton_preserved sid m e.1 e.2
      (hall e (List.mem_cons_self _ _)) h
    exact ih _ (fun p hp => hall p (List.mem_cons_of_mem _ hp)) h1

/-- C1: for every sequence of hook events all carrying the same external
session identifier, applied to a fresh store, the store holds at most one
record at every point, and after a nonempty sequence of session-start
events with that identifier the record count equals exactly 1. -/
theorem single_record_per_external_id (sid : Str)
    (evs : List (Int × HookEvent))
    (hall : ∀ p ∈ evs, eventSessionId p.2 = sid) :
    (∀ evs1 evs2, evs = evs1 ++ evs2 →
      (applyHookEvents SessionManager.empty evs1).sessions.length ≤ 1) ∧
    ((∀ p ∈ evs, isSessionStart p.2 = true) → evs ≠ [] →
      (applyHookEvents SessionManager.empty evs).sessions.length = 1) := by
  constructor
  · intro evs1 evs2 heq
    have hall1 : ∀ p ∈ evs1, eventSessionId p.2 = sid := fun p hp =>
      hall p (heq ▸ List.mem_append_left _ hp)
    have hinv := singleInv_trace sid evs1 SessionManager.empty hall1
      (Or.inl ⟨rfl, rfl⟩)
    rcases hinv with ⟨hs, _⟩ | ⟨i, s, hs, _⟩ <;> simp [hs]
  · intro hstarts hne
    cases evs with
    | nil => exact absurd rfl hne
    | cons e rest =>
      have hev : eventSessionId e.2 = sid := hall e (List.mem_cons_self _ _)
      have hstart : isSessionStart e.2 = true :=
        hstarts e (List.mem_cons_self _ _)
      have h1 : singletonInv sid (handleHookEvent SessionManager.empty e.1 e.2).2 := by
        cases hcase : e.2 with
        | SessionStart sid' tp cwd =>
          rw [hcase] at hev
          simp only [eventSessionId] at hev
          subst hev
          exact start_creates_singleton sid' SessionManager.empty e.1 tp cwd
            (Or.inl ⟨rfl, rfl⟩)
        | SessionEnd sid' => rw [hcase] at hstart; cases hstart
        | Notification sid' msg nt => rw [hcase] at hstart; cases hstart
        | Stop sid' => rw [hcase] at hstart; cases hstart
      have h2 := singleton_trace sid rest _
        (fun p hp => hall p (List.mem_cons_of_mem _ hp)) h1
      obtain ⟨i, s, hs, _⟩ := h2
      simp only [applyHookEvents, List.foldl_cons] at hs ⊢
      simp [hs]

/-- Witness for C1: two session-start events for external id "a" leave
exactly one record; the one-element proper prefix also holds at most one. -/
theorem single_record_per_external_id_witness :
    (applyHookEvents SessionManager.empty
      [(0, HookEvent.SessionStart ("a".data) none ("/x".data)),
       (1, HookEvent.SessionStart ("a".data) (some ("/t".data)) ("/y".data))]).sessions.length = 1 ∧
    (applyHookEvents SessionManager.empty
      [(0, HookEvent.SessionStart ("a".data) none ("/x".data))]).sessions.length ≤ 1 := by
  have h := single_record_per_external_id ("a".data)
    [(0, HookEvent.SessionStart ("a".data) none ("/x".data)),
     (1, HookEvent.SessionStart ("a".data) (some ("/t".data)) ("/y".data))]
    (by decide)
  exact ⟨h.2 (by decide) (by decide),
    h.1 [(0, HookEvent.SessionStart ("a".data) none ("/x".data))]
      [(1, HookEvent.SessionStart ("a".data) (some ("/t".data)) ("/y".data))] rfl⟩

/-! ### C3: ended_at versus terminal status -/

/-- C3 (counterexample): after start, end, start for the same external id,
the single record has non-terminal status `Running` while `ended_at` is
still set, refuting "ended_at is Some iff the status is terminal". -/
theorem ended_at_iff_terminal_counterexample :
    (alGet (applyHookEvents SessionManager.empty
      [(0, HookEvent.SessionStart ("a".data) none ("/x".data)),
       (1, HookEvent.SessionEnd ("a".data)),
       (2, HookEvent.SessionStart ("a".data) none ("/x".data))]).sessions 0).map
      (fun s => (s.status, s.ended_at, s.status.terminal)) =
      some (SessionStatus.Running, some 1, false) := by
  decide

theorem mem_alErase_subset {α β : Type} [DecidableEq α] {l : List (α × β)}
    {k : α} {p : α × β} (h : p ∈ alErase l k) : p ∈ l := by
  induction l with
  | nil => simp [alErase] at h
  | cons q t ih =>
    unfold alErase at h
    by_cases h1 : q.1 = k
    · rw [if_pos h1] at h
      exact List.mem_cons_of_mem _ (ih h)
    · rw [if_neg h1] at h
      rcases List.mem_cons.mp h with h2 | h2
      · exact h2 ▸ List.mem_cons_self _ _
      · exact List.mem_cons_of_mem _ (ih h2)

theorem mem_alInsert {α β : Type} [DecidableEq α] {l : List (α × β)} {k : α}
    {v : β} {p : α × β} (h : p ∈ alInsert l k v) : p = (k, v) ∨ p ∈ l := by
  rcases List.mem_cons.mp h with h1 | h1
  · exact Or.inl h1
  · exact Or.inr (mem_alErase_subset h1)

/-- Sessions present after one removal step were present before. -/
theorem mem_removeSession_subset {m : SessionManager} {i : Nat}
    {p : Nat × Session} (h : p ∈ (removeSession m i).sessions) :
    p ∈ m.sessions := by
  unfold removeSession at h
  cases h1 : alGet m.sessions i with
  | none => rw [h1] at h; exact h
  | some s => rw [h1] at h; exact mem_alErase_subset h

theorem mem_fold_remove_subset {R : List Nat} {m : SessionManager}
    {p : Nat × Session} (h : p ∈ (R.foldl removeSession m).sessions) :
    p ∈ m.sessions := by
  induction R generalizing m with
  | nil => exact h
  | cons i R ih => exact mem_removeSession_subset (ih h)

/-- Preservation of "terminal status implies ended_at is set" by every
store operation. -/
theorem endedInv_preserved (m : SessionManager) (op : StoreOp)
    (h : ∀ p ∈ m.sessions, p.2.status.terminal = true →
      p.2.ended_at.isSome = true) :
    ∀ p ∈ (applyOp m op).sessions, p.2.status.terminal = true →
      p.2.ended_at.isSome = true := by
  cases op with
  | hook now ev =>
    intro p hp
    cases ev with
    | SessionStart sid tp cwd =>
      cases hf : findByClaudeId m sid with
      | some pr =>
        obtain ⟨i, s⟩ := pr
        simp only [applyOp, handleHookEvent, hf] at hp
        rcases mem_alInsert hp with h1 | h1
        · subst h1
          intro hterm
          cases hterm
        · exact h p h1
      | none =>
        simp only [applyOp, handleHookEvent, hf] at hp
        rcases mem_alInsert hp with h1 | h1
        · subst h1
          intro hterm
          cases hterm
        · exact h p h1
    | SessionEnd sid =>
      cases hf : findByClaudeId m sid with
      | some pr =>
        obtain ⟨i, s⟩ := pr
        simp only [applyOp, handleHookEvent, hf] at hp
        rcases mem_alInsert hp with h1 | h1
        · subst h1
          intro _
          rfl
        · exact h p h1
      | none =>
        simp only [applyOp, handleHookEvent, hf] at hp
        exact h p hp
    | Notification sid msg nt =>
      cases hf : findByClaudeId m sid with
      | some pr =>
        obtain ⟨i, s⟩ := pr
        simp only [applyOp, handleHookEvent, hf] at hp
        rcases mem_alInsert hp with h1 | h1
        · subst h1
          intro hterm
          cases hterm
        · exact h p h1
      | none =>
        simp only [applyOp, handleHookEvent, hf] at hp
        exact h p hp
    | Stop sid =>
      cases hf : findByClaudeId m sid with
      | some pr =>
        obtain ⟨i, s⟩ := pr
        simp only [applyOp, handleHookEvent, hf] at hp
        rcases mem_alInsert hp with h1 | h1
        · subst h1
          intro hterm
          cases hterm
        · exact h p h1
      | none =>
        simp only [applyOp, handleHookEvent, hf] at hp
        exact h p hp
  | setThread id t =>
    intro p hp
    cases hf : alGet m.sessions id with
    | some s =>
      simp only [applyOp, setSlackThread, hf] at hp
      rcases mem_alInsert hp with h1 | h1
      · subst h1
        exact h (id, s) (alGet_mem hf)
      · exact h p h1
    | none =>
      simp only [applyOp, setSlackThread, hf] at hp
      exact h p hp
  | sweep a n =>
    intro p hp
    exact h p (mem_fold_remove_subset hp)

/-- C3 (amended): for every sequence of store operations applied to a
fresh store, every record whose status is terminal has `ended_at` set.
The reverse implication of the original claim fails (see the
counterexample): a session-start for an already-ended session resets the
status to `Running` without clearing `ended_at`. -/
theorem terminal_implies_ended_at (ops : List StoreOp) :
    ∀ p ∈ (applyOps SessionManager.empty ops).sessions,
      p.2.status.terminal = true → p.2.ended_at.isSome = true := by
  have main : ∀ (ops : List StoreOp) (m : SessionManager),
      (∀ p ∈ m.sessions, p.2.status.terminal = true →
        p.2.ended_at.isSome = true) →
      ∀ p ∈ (applyOps m ops).sessions, p.2.status.terminal = true →
        p.2.ended_at.isSome = true := by
    intro ops
    induction ops with
    | nil => intro m h; exact h
    | cons op rest ih =>
      intro m h
      exact ih _ (endedInv_preserved m op h)
  exact main ops SessionManager.empty (by intro p hp; cases hp)

/-- Witness for C3's amended theorem: a started-then-ended session is
terminal and indeed has `ended_at` set. -/
theorem terminal_implies_ended_at_witness :
    ({ id := 0
       claude_session_id := some ("a".data)
       repo_path := "/x".data
       repo_alias := none
       prompt := "External session".data
       status := SessionStatus.Completed
       started_at := 0
       ended_at := some 1
       slack_thread := none
       transcript_path := none } : Session).ended_at.isSome = true :=
  terminal_implies_ended_at
    [StoreOp.hook 0 (HookEvent.SessionStart ("a".data) none ("/x".data)),
     StoreOp.hook 1 (HookEvent.SessionEnd ("a".data))]
    (0, { id := 0
          claude_session_id := some ("a".data)
          repo_path := "/x".data
          repo_alias := none
          prompt := "External session".data
          status := SessionStatus.Completed
          started_at := 0
          ended_at := some 1
          slack_thread := none
          transcript_path := none })
    (by decide) (by decide)

/-! ### C7: retention sweep -/

theorem alGet_removeSession_sessions (m : SessionManager) (i j : Nat) :
    alGet (removeSession m i).sessions j =
      if j = i then none else alGet m.sessions j := by
  unfold removeSession
  cases h : alGet m.sessions i with
  | none =>
    by_cases hj : j = i
    · subst hj; simp [h]
    · simp [hj]
  | some s => simp [alGet_erase]

theorem alGet_fold_remove (R : List Nat) (m : SessionManager) (j : Nat) :
    alGet ((R.foldl removeSession m).sessions) j =
      if j ∈ R then none else alGet m.sessions j := by
  induction R generalizing m with
  | nil => simp
  | cons i R ih =>
    simp only [List.foldl_cons]
    rw [ih]
    by_cases hR : j ∈ R
    · simp [hR]
    · by_cases hji : j = i
      · simp [hR, hji, alGet_removeSession_sessions]
      · simp [hR, hji, alGet_removeSession_sessions]

theorem removeSession_map_none (m : SessionManager) (i : Nat) (c : Str)
    (h : alGet m.claude_id_map c = none) :
    alGet (removeSession m i).claude_id_map c = none := by
  unfold removeSession
  cases h1 : alGet m.sessions i with
  | none => exact h
  | some s =>
    cases h2 : s.claude_session_id with
    | none => simp [h2, h]
    | some cid => simp [h2, alGet_erase, h]

theorem fold_remove_map_none (R : List Nat) (m : SessionManager) (c : Str)
    (h : alGet m.claude_id_map c = none) :
    alGet ((R.foldl removeSession m).claude_id_map) c = none := by
  induction R generalizing m with
  | nil => exact h
  | cons i R ih => exact ih _ (removeSession_map_none m i c h)

theorem fold_remove_claude_map (i : Nat) (s : Session) (cid : Str) :
    ∀ (R : List Nat) (m : SessionManager), R.Nodup → i ∈ R →
      alGet m.sessions i = some s → s.claude_session_id = some cid →
      alGet ((R.foldl removeSession m).claude_id_map) cid = none := by
  intro R
  induction R with
  | nil => intro m _ hiR _ _; cases hiR
  | cons j R ih =>
    intro m hR hiR hs hcid
    simp only [List.foldl_cons]
    rcases List.mem_cons.mp hiR with h1 | h1
    · subst h1
      have hstep : alGet (removeSession m i).claude_id_map cid = none := by
        unfold removeSession
        rw [hs]
        simp [hcid, alGet_erase]
      exact fold_remove_map_none R _ cid hstep
    · have hji : i ≠ j := by
        intro he
        exact (List.nodup_cons.mp hR).1 (he ▸ h1)
      have hs2 : alGet (removeSession m j).sessions i = some s := by
        rw [alGet_removeSession_sessions]
        simp [hji, hs]
      exact ih _ (List.nodup_cons.mp hR).2 h1 hs2 hcid

theorem sessionExpired_iff (max_age now : Int) (s : Session) :
    sessionExpired max_age now s = true ↔
      (s.status.terminal = true ∧
        ∃ e, s.ended_at = some e ∧ now - e > max_age) := by
  unfold sessionExpired
  rw [is_active_eq_not_terminal]
  cases he : s.ended_at with
  | none => simp [he]
  | some e => simp [he, Bool.not_not, Bool.and_eq_true, decide_eq_true_eq]

theorem mem_toRemove_iff (m : SessionManager) (a n : Int)
    (hnd : (m.sessions.map Prod.fst).Nodup) (id : Nat) (s : Session)
    (hs : alGet m.sessions id = some s) :
    (id ∈ (m.sessions.filter (fun p => sessionExpired a n p.2)).map Prod.fst) ↔
      sessionExpired a n s = true := by
  constructor
  · intro h
    obtain ⟨p, hp, hfst⟩ := List.mem_map.mp h
    obtain ⟨hpm, hpe⟩ := List.mem_filter.mp hp
    have hget : alGet m.sessions p.1 = some p.2 :=
      mem_alGet hnd (by simpa using hpm)
    rw [hfst, hs] at hget
    obtain rfl := Option.some.inj hget
    simpa using hpe
  · intro h
    exact List.mem_map.mpr ⟨(id, s),
      List.mem_filter.mpr ⟨alGet_mem hs, by simpa using h⟩, rfl⟩

/-- C7: `cleanup_old_sessions` removes exactly the records with terminal
status and an end timestamp older than `max_age` relative to `now`;
records that are non-terminal or not old enough are untouched, and the
claude-id index entry of every deleted record is removed. -/
theorem sweep_expired (m : SessionManager) (max_age now : Int)
    (hnd : (m.sessions.map Prod.fst).Nodup) (id : Nat) (s : Session)
    (hs : alGet m.sessions id = some s) :
    ((s.status.terminal = true ∧
        (∃ e, s.ended_at = some e ∧ now - e > max_age)) →
      alGet (cleanupOldSessions m max_age now).sessions id = none) ∧
    (¬(s.status.terminal = true ∧
        (∃ e, s.ended_at = some e ∧ now - e > max_age)) →
      alGet (cleanupOldSessions m max_age now).sessions id = some s) ∧
    (∀ cid, s.claude_session_id = some cid →
      (s.status.terminal = true ∧
        (∃ e, s.ended_at = some e ∧ now - e > max_age)) →
      alGet (cleanupOldSessions m max_age now).claude_id_map cid = none) := by
  have hiff := mem_toRemove_iff m max_age now hnd id s hs
  have hndR : ((m.sessions.filter
      (fun p => sessionExpired max_age now p.2)).map Prod.fst).Nodup :=
    hnd.sublist ((List.filter_sublist _).map _)
  refine ⟨?_, ?_, ?_⟩
  · intro hx
    have hmem := hiff.mpr ((sessionExpired_iff max_age now s).mpr hx)
    unfold cleanupOldSessions
    rw [alGet_fold_remove]
    simp [hmem]
  · intro hx
    have hmem : id ∉ (m.sessions.filter
        (fun p => sessionExpired max_age now p.2)).map Prod.fst :=
      fun h => hx ((sessionExpired_iff max_age now s).mp (hiff.mp h))
    unfold cleanupOldSessions
    rw [alGet_fold_remove]
    simp [hmem, hs]
  · intro cid hcid hx
    have hmem := hiff.mpr ((sessionExpired_iff max_age now s).mpr hx)
    exact fold_remove_claude_map id s cid _ m hndR hmem hs hcid

/-- Witness for C7: with `max_age = 100` at `now = 1000`, the sweep deletes
the completed session that ended at 100 (and its index entry), keeps the
completed session that ended at 990, and keeps the non-terminal session
regardless of its old end timestamp. -/
theorem sweep_expired_witness :
    alGet (cleanupOldSessions mSweep 100 1000).sessions 10 = none ∧
    alGet (cleanupOldSessions mSweep 100 1000).sessions 11 = some sweepYoung ∧
    alGet (cleanupOldSessions mSweep 100 1000).sessions 12 = some sweepActive ∧
    alGet (cleanupOldSessions mSweep 100 1000).claude_id_map ("old".data) = none := by
  have h10 := sweep_expired mSweep 100 1000 (by decide) 10 sweepOld (by decide)
  have h11 := sweep_expired mSweep 100 1000 (by decide) 11 sweepYoung (by decide)
  have h12 := sweep_expired mSweep 100 1000 (by decide) 12 sweepActive (by decide)
  refine ⟨h10.1 ⟨by decide, 100, rfl, by decide⟩, h11.2.1 ?_, h12.2.1 ?_,
    h10.2.2 ("old".data) (by decide) ⟨by decide, 100, rfl, by decide⟩⟩
  · rintro ⟨-, e, he, hgt⟩
    have he2 : (990 : Int) = e := by
      have : sweepYoung.ended_at = some 990 := rfl
      rw [this] at he
      exact Option.some.inj he
    omega
  · rintro ⟨hterm, -⟩
    have : sweepActive.status.terminal = false := rfl
    rw [this] at hterm
    cases hterm

/-! ### C9: Slack threads are never replaced -/

theorem handleHookEvent_create (m : SessionManager) (t : Int) (sid : Str)
    (tp : Option Str) (cwd : Str) (hf : findByClaudeId m sid = none) :
    handleHookEvent m t (HookEvent.SessionStart sid tp cwd) =
      (some (mkExternalSession sid tp cwd m.next_id t),
        { sessions := alInsert m.sessions m.next_id (mkExternalSession sid tp cwd m.next_id t)
          claude_id_map := alInsert m.claude_id_map sid m.next_id
          next_id := m.next_id + 1 }) := by
  simp [handleHookEvent, hf, mkExternalSession, Session.new]

/-- C9: on the daemon's hook-handling step, a session that already carries
a Slack thread keeps exactly that thread: the step only attaches a thread
when the affected session has none (daemon.rs guards `set_slack_thread`
with `slack_thread.is_none()`), so an existing thread is never replaced.
The two hypotheses on `m` express the `Uuid` model: stored keys are below
the fresh-id counter and each record's id field equals its key. -/
theorem slack_thread_never_replaced (m : SessionManager) (now : Int)
    (ev : HookEvent) (newThread : Option SlackThread) (id : Nat) (s : Session)
    (t : SlackThread)
    (hfresh : ∀ p ∈ m.sessions, p.1 < m.next_id)
    (hids : ∀ p ∈ m.sessions, p.2.id = p.1)
    (hs : alGet m.sessions id = some s) (ht : s.slack_thread = some t) :
    ∃ s2, alGet (daemonHookStep m now ev newThread).sessions id = some s2 ∧
      s2.slack_thread = some t := by
  cases hf : findByClaudeId m (eventSessionId ev) with
  | some pr =>
    obtain ⟨i0, s0⟩ := pr
    obtain ⟨s2v, hstep, hth, hid2⟩ := handleHookEvent_found m now ev i0 s0 hf
    have hfs := findByClaudeId_some hf
    unfold daemonHookStep
    rw [hstep]
    by_cases hcase : i0 = id
    · subst hcase
      obtain rfl : s0 = s := Option.some.inj ((hfs.2.symm.trans hs))
      have hg : ¬(s2v.slack_thread = none) := by
        rw [hth, ht]
        simp
      simp only [if_neg hg]
      refine ⟨s2v, ?_, by rw [hth, ht]⟩
      simp [alGet_insert]
    · have hne : ¬(id = i0) := fun he => hcase he.symm
      have hget2 : alGet (alInsert m.sessions i0 s2v) id = some s := by
        rw [alGet_insert]
        simp [hne, hs]
      by_cases hg : s2v.slack_thread = none
      · simp only [if_pos hg]
        cases newThread with
        | none => exact ⟨s, hget2, ht⟩
        | some th =>
          have hid0 : s2v.id = i0 := by
            rw [hid2]
            exact hids (i0, s0) (alGet_mem hfs.2)
          unfold setSlackThread
          rw [hid0]
          have hgmid : alGet (alInsert m.sessions i0 s2v) i0 = some s2v := by
            rw [alGet_insert]
            simp
          simp only [hgmid]
          refine ⟨s, ?_, ht⟩
          rw [alGet_insert]
          simp [hne, hget2]
      · simp only [if_neg hg]
        exact ⟨s, hget2, ht⟩
  | none =>
    cases ev with
    | SessionStart sid tp cwd =>
      simp only [eventSessionId] at hf
      have hidlt : id < m.next_id := hfresh (id, s) (alGet_mem hs)
      have hne : ¬(id = m.next_id) := by omega
      unfold daemonHookStep
      rw [handleHookEvent_create m now sid tp cwd hf]
      have hget2 : alGet (alInsert m.sessions m.next_id (mkExternalSession sid tp cwd m.next_id now)) id = some s := by
        rw [alGet_insert]
        simp [hne, hs]
      have hg : (mkExternalSession sid tp cwd m.next_id now).slack_thread = none := rfl
      simp only [hg, if_pos]
      cases newThread with
      | none => exact ⟨s, hget2, ht⟩
      | some th =>
        have hid0 : (mkExternalSession sid tp cwd m.next_id now).id = m.next_id := rfl
        unfold setSlackThread
        rw [hid0]
        have hgmid : alGet (alInsert m.sessions m.next_id (mkExternalSession sid tp cwd m.next_id now)) m.next_id = some (mkExternalSession sid tp cwd m.next_id now) := by
          rw [alGet_insert]
          simp
        simp only [hgmid]
        refine ⟨s, ?_, ht⟩
        rw [alGet_insert]
        simp [hne, hget2]
    | SessionEnd sid =>
      simp only [eventSessionId] at hf
      unfold daemonHookStep
      simp only [handleHookEvent, hf]
      exact ⟨s, hs, ht⟩
    | Notification sid msg nt =>
      simp only [eventSessionId] at hf
      unfold daemonHookStep
      simp only [handleHookEvent, hf]
      exact ⟨s, hs, ht⟩
    | Stop sid =>
      simp only [eventSessionId] at hf
      unfold daemonHookStep
      simp only [handleHookEvent, hf]
      exact ⟨s, hs, ht⟩

/-- Witness for C9: a notification event handled by the daemon step with a
fresh thread on offer leaves the existing thread `tOld` in place. -/
theorem slack_thread_never_replaced_witness :
    ∃ s2, alGet (daemonHookStep mThread 7
        (HookEvent.Notification ("a".data) ("msg".data) none)
        (some tNew)).sessions 0 = some s2 ∧
      s2.slack_thread = some tOld :=
  slack_thread_never_replaced mThread 7
    (HookEvent.Notification ("a".data) ("msg".data) none) (some tNew) 0
    ({ baseSession with slack_thread := some tOld }) tOld
    (by decide) (by decide) (by decide) (by decide)

/-- Witness for C8 on the empty store. -/
theorem session_end_after_start_witness :
    ∃ s, (handleHookEvent
        (handleHookEvent SessionManager.empty 0
          (HookEvent.SessionStart ("a".data) none ("/x".data))).2 5
        (HookEvent.SessionEnd ("a".data))).1 = some s ∧
      s.status = SessionStatus.Completed ∧
      s.ended_at = some 5 ∧ s.started_at = 0 ∧ s.started_at < 5 :=
  session_end_after_start SessionManager.empty ("a".data) none ("/x".data) 0 5
    (by decide) (by decide)

end SlackCode
